import Mathlib

/-!
Shallow embedding of the expense-tracking backend
(`backend/app/services/llm.py`, `backend/app/services/bot.py`,
`backend/app/main.py`) and proofs about the claims of its specification.

Text is modelled as `List Char`; Python dicts returned by the parsers are
modelled as Lean structures holding the fields the code writes; fallible
Python code is modelled with `Except`/`Option`.  Python float values that
arise in the parsers are exact decimal values of numeric tokens; they are
modelled by the exact decimal type `PyFloat` below (`num / 10 ^ exp`), whose
order coincides with the float order for all receipt-sized tokens.
-/

deriving instance DecidableEq for Except

namespace Ledger

abbrev Str := List Char

def strOf (s : String) : Str := s.toList

/-- Python `str.isspace` characters relevant to `str.strip()` / `\s`. -/
def pySpaceChar (c : Char) : Bool :=
  c == ' ' || c == '\t' || c == '\n' || c == '\r' || c == '\x0b' || c == '\x0c'

/-- Python `str.strip()`: remove whitespace from both ends. -/
def stripPy (s : Str) : Str :=
  ((s.dropWhile pySpaceChar).reverse.dropWhile pySpaceChar).reverse

/-- Python `str.lower()`.  `Char.toLower` lowers the ASCII range; all keyword
tokens the code lowercases are ASCII or CJK (where lowering is the identity),
so this agrees with Python on every comparison the code performs. -/
def lowerPy (s : Str) : Str := s.map Char.toLower

/-- Python substring test `pat in s`. -/
def isSubstrPy (pat : Str) : Str → Bool
  | [] => pat.isEmpty
  | c :: t => pat.isPrefixOf (c :: t) || isSubstrPy pat t

/-- Python `any(tok in s for tok in toks)`. -/
def anyTokIn (toks : List Str) (s : Str) : Bool :=
  toks.any (fun t => isSubstrPy t s)

/-- Python `str.splitlines()` restricted to the `\n`, `\r`, `\r\n`
terminators (the ones that occur in OCR text). -/
def splitLinesPy : Str → List Str
  | [] => []
  | s  => splitAux [] s
where
  splitAux (acc : Str) : Str → List Str
    | [] => [acc.reverse]
    | '\r' :: '\n' :: t => acc.reverse :: (match t with | [] => [] | t => splitAux [] t)
    | '\r' :: t => acc.reverse :: (match t with | [] => [] | t => splitAux [] t)
    | '\n' :: t => acc.reverse :: (match t with | [] => [] | t => splitAux [] t)
    | c :: t => splitAux (c :: acc) t

/-- Value of a run of decimal digits. -/
def digitsToNat (ds : Str) : Nat :=
  ds.foldl (fun n c => n * 10 + (c.toNat - 48)) 0

/-- Exact value of a Python float obtained by calling `float` on a numeric
token: `num / 10 ^ exp`.  Comparisons are computed exactly; for the token
sizes that occur on receipts this coincides with IEEE float comparison. -/
structure PyFloat where
  num : Nat
  exp : Nat
deriving DecidableEq

/-- Value order on `PyFloat` (cross multiplication, exact). -/
def PyFloat.lt (a b : PyFloat) : Bool :=
  a.num * 10 ^ b.exp < b.num * 10 ^ a.exp

/-- Value order on `PyFloat` (non-strict). -/
def PyFloat.le (a b : PyFloat) : Bool :=
  a.num * 10 ^ b.exp ≤ b.num * 10 ^ a.exp

/-- Rational value of a `PyFloat`, for stating claims. -/
def PyFloat.val (a : PyFloat) : ℚ := (a.num : ℚ) / (10 : ℚ) ^ a.exp

/-- Python `float(val_str.replace(",", ""))` on a group matched by the
receipt number pattern (digits, optional thousands commas, optional
fractional part). -/
def pyFloatOfGroup (g : Str) : PyFloat :=
  let cs := g.filter (fun c => c ≠ ',')
  let ip := cs.takeWhile (fun c => c ≠ '.')
  let rest := cs.dropWhile (fun c => c ≠ '.')
  match rest with
  | _ :: fp => ⟨digitsToNat ip * 10 ^ fp.length + digitsToNat fp, fp.length⟩
  | [] => ⟨digitsToNat ip, 0⟩

/-! ## `_simple_parse` (services/llm.py lines 90-111)

The amount regex in the source is the raw string `([0-9]+(?:\\.[0-9]+)?)`.
Because the backslash is doubled inside a raw string, the optional part of
the pattern is `\\ . [0-9]+`: a literal backslash, then any character other
than a newline, then digits.  It can never match a decimal point, so the
captured group is the first maximal digit run, optionally followed by a
literal backslash, one character and another digit run; in the latter case
`float(...)` raises `ValueError`, which `_simple_parse` does not catch. -/

structure SimpleRes where
  amount : PyFloat
  currency : Str
  category : Str
  item : Str
deriving DecidableEq

/-- Group captured by `re.search(r"([0-9]+(?:\\.[0-9]+)?)", text)` at the
first digit of `cs` (which must start with a digit): the maximal digit run,
then optionally a literal backslash, any non-newline character and a further
digit run (see the module comment above on the doubled backslash). -/
def numGroupSimple (cs : Str) : Str :=
  let ds := cs.takeWhile Char.isDigit
  match cs.drop ds.length with
  | '\\' :: c :: t =>
      let fs := t.takeWhile Char.isDigit
      if c ≠ '\n' ∧ fs ≠ [] then ds ++ '\\' :: c :: fs else ds
  | _ => ds

/-- Embedding of `_simple_parse`.  `Except` models the uncaught
`ValueError` from `float(...)` when the captured group contains the
backslash sequence described above. -/
def simpleParse (text : Str) : Except Unit (Option SimpleRes) :=
  let lower := lowerPy text
  let currency := strOf "CNY"
  let currency :=
    if anyTokIn [strOf "hkd", strOf "港币", strOf "港元", strOf "港幣",
                 strOf "港紙", strOf "蚊"] lower then strOf "HKD" else currency
  let currency :=
    if anyTokIn [strOf "cny", strOf "人民币", strOf "rmb"] lower then strOf "CNY"
    else currency
  let currency :=
    if text.contains '块' || text.contains '元' then strOf "CNY" else currency
  match text.dropWhile (fun c => !c.isDigit) with
  | [] => .ok none
  | cs =>
    let g := numGroupSimple cs
    if g.contains '\\' then .error () else
    let amount : PyFloat := ⟨digitsToNat g, 0⟩
    let category := strOf "其他"
    let category :=
      if anyTokIn [strOf "充值", strOf "会员", strOf "充值值", strOf "会员费"] text then
        strOf "其他"
      else if anyTokIn [strOf "餐", strOf "饭", strOf "早餐", strOf "午饭",
                        strOf "晚餐", strOf "买菜", strOf "超市"] text then
        strOf "餐饮"
      else if anyTokIn [strOf "打车", strOf "出租", strOf "交通", strOf "地铁",
                        strOf "公交", strOf "的士", strOf "巴士", strOf "MTR",
                        strOf "mtr"] text then
        strOf "交通"
      else category
    .ok (some { amount := amount, currency := currency, category := category,
                item := stripPy text })

example : simpleParse (strOf "coffee 4.50") =
    .ok (some { amount := ⟨4, 0⟩, currency := strOf "CNY",
                category := strOf "其他", item := strOf "coffee 4.50" }) := by
  decide

example : simpleParse (strOf "港元5") =
    .ok (some { amount := ⟨5, 0⟩, currency := strOf "CNY",
                category := strOf "其他", item := strOf "港元5" }) := by
  decide

example : simpleParse (strOf "4\\b12") = .error () := by decide

example : simpleParse (strOf "hello") = .ok none := by decide

/-! ## `_parse_receipt_heuristics` (services/llm.py lines 113-246)

The amount candidates and the chosen amount/currency are embedded in full.
The remainder of the function (date and time extraction at lines 162-179,
item and category naming at lines 180-241) only adds the `created_at`,
`item` and `category` fields of the returned dict from other parts of the
input; it does not influence `is_expense`, `amount` or `currency`, which are
the fields the specification claims speak about, so those fields are the
ones carried by `RcptRes`. -/

/-- One entry of the `candidates` list built at lines 136-141. -/
structure Cand where
  amount : PyFloat
  negative : Bool
  currency : Option Str
  line : Str
deriving DecidableEq

/-- Match of the number pattern `[-]?\s*(\d{1,3}(?:,\d{3})*(?:\.\d+)?|\d+\.\d{2})`
at the current position: an optional minus sign, optional whitespace, then
the first alternative of the group.  (The second alternative `\d+\.\d{2}` is
unreachable: both alternatives require a digit at the same position and the
regex engine tries the first alternative first, which succeeds whenever a
digit is present.)  Returns the captured group and the remaining input. -/
def matchNumAt (cs : Str) : Option (Str × Str) :=
  let cs1 := match cs with
    | '-' :: t => t
    | _ => cs
  let cs2 := cs1.dropWhile pySpaceChar
  match cs2.takeWhile Char.isDigit with
  | [] => none
  | _ :: _ =>
    -- \d{1,3}: greedily up to three digits
    let d1 := (cs2.takeWhile Char.isDigit).take 3
    let rest := cs2.drop d1.length
    -- (?:,\d{3})*: greedily repeat comma plus exactly three digits
    let (grps, rest) := commaGroups rest cs2.length
    -- (?:\.\d+)?: greedily a dot followed by at least one digit
    match rest with
    | '.' :: r =>
      match r.takeWhile Char.isDigit with
      | [] => some (d1 ++ grps, rest)
      | fs => some (d1 ++ grps ++ '.' :: fs, r.drop fs.length)
    | _ => some (d1 ++ grps, rest)
where
  commaGroups (cs : Str) : Nat → (Str × Str)
    | 0 => ([], cs)
    | fuel + 1 =>
      match cs with
      | ',' :: a :: b :: c :: t =>
        if a.isDigit && b.isDigit && c.isDigit then
          let (g, r) := commaGroups t fuel
          (',' :: a :: b :: c :: g, r)
        else ([], cs)
      | _ => ([], cs)

/-- `num_pattern.finditer(ln)`: all captured groups, scanning left to right
and resuming after each match (matches are nonempty, so the input length is
enough fuel). -/
def findNums (ln : Str) : List Str :=
  go ln.length ln
where
  go : Nat → Str → List Str
    | 0, _ => []
    | _, [] => []
    | fuel + 1, c :: t =>
      match matchNumAt (c :: t) with
      | some (g, rest) => g :: go fuel rest
      | none => go fuel t

/-- `re.search(r"\d+\.\d{2}", s)` as a Boolean: some digit followed by a dot
and two digits occurs in `s`. -/
def hasTwoDecimals : Str → Bool
  | a :: b :: c :: d :: t =>
    (a.isDigit && b == '.' && c.isDigit && d.isDigit) || hasTwoDecimals (b :: c :: d :: t)
  | _ => false

def keywordsTotal : List Str :=
  [strOf "total", strOf "amount", strOf "合计", strOf "總計", strOf "实付",
   strOf "實付", strOf "总额", strOf "金額", strOf "金額合計"]

def currencyTokens : List Str :=
  [strOf "HK$", strOf "HKD", strOf "CNY", strOf "RMB", strOf "¥", strOf "￥"]

/-- `any(kw.lower() in ln.lower() for kw in keywords_total)` (the keywords
are already lowercase). -/
def hasTotalKw (ln : Str) : Bool :=
  anyTokIn keywordsTotal (lowerPy ln)

/-- Text-level currency guess of lines 117-121. -/
def moduleCurrency (textLower : Str) : Option Str :=
  if anyTokIn [strOf "hk$", strOf "hkd", strOf "港币", strOf "港元", strOf "港幣"]
      textLower then
    some (strOf "HKD")
  else if anyTokIn [strOf "cny", strOf "rmb", strOf "人民币", strOf "¥", strOf "￥",
                    strOf "元"] textLower then
    some (strOf "CNY")
  else none

/-- Candidate currency of line 139. -/
def candCurrency (ln : Str) (modCur : Option Str) : Option Str :=
  if isSubstrPy (strOf "HK$") ln || isSubstrPy (strOf "HKD") ln then some (strOf "HKD")
  else if isSubstrPy (strOf "CNY") ln || isSubstrPy (strOf "RMB") ln ||
          isSubstrPy (strOf "¥") ln || isSubstrPy (strOf "￥") ln ||
          isSubstrPy (strOf "元") ln || isSubstrPy (strOf "人民币") ln then
    some (strOf "CNY")
  else modCur

/-- Candidates contributed by one qualifying line (lines 127-143).  The
`float` call at line 135 cannot fail, because every captured group consists
of digits, commas and at most one dot; the surrounding `try/except` is dead
code. -/
def lineCands (modCur : Option Str) (ln : Str) : List Cand :=
  let hasCurrency := currencyTokens.any (fun tok => isSubstrPy tok ln)
  let hasTotal := hasTotalKw ln
  let isNegativeLine := match stripPy ln with
    | '-' :: _ => true
    | _ => false
  let hasCnyWord := isSubstrPy (strOf "元") ln || isSubstrPy (strOf "人民币") ln ||
    isSubstrPy (strOf "人民幣") ln
  if hasCurrency || hasTotal || isNegativeLine || hasCnyWord then
    (findNums ln).map (fun g =>
      { amount := pyFloatOfGroup g,
        negative := (match stripPy ln with | '-' :: _ => true | _ => false) ||
          ln.contains '-',
        currency := candCurrency ln modCur,
        line := ln })
  else []

/-- The stripped nonempty lines of the OCR text (line 115). -/
def ocrLines (ocr : Str) : List Str :=
  ((splitLinesPy ocr).map stripPy).filter (fun l => !l.isEmpty)

/-- The full `candidates` list (lines 124-143). -/
def extractCandidates (ocr : Str) : List Cand :=
  let modCur := moduleCurrency (lowerPy ocr)
  (ocrLines ocr).flatMap (lineCands modCur)

/-- The comparison step of Python `max(l, key=lambda c: c["amount"])`:
the running maximum is replaced only on a strictly larger key, so the first
element of maximal amount wins. -/
def maxStep (best x : Cand) : Cand :=
  if best.amount.lt x.amount then x else best

/-- Python `max(l, key=lambda c: c["amount"])`: first element of maximal
amount, `none` on the empty list. -/
def pymaxAmount : List Cand → Option Cand
  | [] => none
  | c :: t => some (t.foldl maxStep c)

/-- Python `a or b` on lists. -/
def orNE (a b : List Cand) : List Cand := if a.isEmpty then b else a

/-- The selection chain of lines 144-156. -/
def choose (candidates : List Cand) : Option Cand :=
  let decimals := candidates.filter (fun c => hasTwoDecimals c.line)
  let negCandidates := orNE (decimals.filter (fun c => c.negative))
    (candidates.filter (fun c => c.negative))
  if !negCandidates.isEmpty then pymaxAmount negCandidates
  else if !decimals.isEmpty then
    pymaxAmount (orNE (decimals.filter (fun c => hasTotalKw c.line)) decimals)
  else
    pymaxAmount (orNE (candidates.filter (fun c => hasTotalKw c.line)) candidates)

/-- The `amount`, `currency` and `is_expense` fields of the dict returned by
`_parse_receipt_heuristics` (see the section comment). -/
structure RcptRes where
  amount : PyFloat
  currency : Str
deriving DecidableEq

/-- Embedding of `_parse_receipt_heuristics`: `none` models the `None`
return at line 158, `some` a dict with `is_expense: True`. -/
def parseReceiptH (ocr : Str) : Option RcptRes :=
  let modCur := moduleCurrency (lowerPy ocr)
  match choose (extractCandidates ocr) with
  | none => none
  | some c =>
    some { amount := c.amount,
           currency := (c.currency.getD (modCur.getD (strOf "CNY"))) }

example : parseReceiptH (strOf "-5\nTotal 45.00") =
    some { amount := ⟨5, 0⟩, currency := strOf "CNY" } := by decide

example : parseReceiptH (strOf "STARBUCKS\nTotal HKD 45.00") =
    some { amount := ⟨4500, 2⟩, currency := strOf "HKD" } := by decide

example : parseReceiptH (strOf "no numbers here") = none := by decide

example : findNums (strOf "1,234.56 and 7") = [strOf "1,234.56", strOf "7"] := by decide

example : findNums (strOf "1234.56") = [strOf "123", strOf "4.56"] := by decide

/-! ## Order facts about `PyFloat` and Python `max` -/

theorem PyFloat.le_iff_val {a b : PyFloat} : a.le b = true ↔ a.val ≤ b.val := by
  have h10 : (0 : ℚ) < (10 : ℚ) ^ a.exp := by positivity
  have h10b : (0 : ℚ) < (10 : ℚ) ^ b.exp := by positivity
  rw [PyFloat.le, PyFloat.val, PyFloat.val, div_le_div_iff₀ h10 h10b]
  rw [decide_eq_true_eq]
  constructor
  · intro h
    calc (a.num : ℚ) * (10 : ℚ) ^ b.exp = ((a.num * 10 ^ b.exp : ℕ) : ℚ) := by
          push_cast; ring
      _ ≤ ((b.num * 10 ^ a.exp : ℕ) : ℚ) := by exact_mod_cast h
      _ = (b.num : ℚ) * (10 : ℚ) ^ a.exp := by push_cast; ring
  · intro h
    have : ((a.num * 10 ^ b.exp : ℕ) : ℚ) ≤ ((b.num * 10 ^ a.exp : ℕ) : ℚ) := by
      push_cast
      calc (a.num : ℚ) * (10 : ℚ) ^ b.exp ≤ (b.num : ℚ) * (10 : ℚ) ^ a.exp := h
        _ = _ := by ring
    exact_mod_cast this

theorem PyFloat.lt_iff_val {a b : PyFloat} : a.lt b = true ↔ a.val < b.val := by
  have h10 : (0 : ℚ) < (10 : ℚ) ^ a.exp := by positivity
  have h10b : (0 : ℚ) < (10 : ℚ) ^ b.exp := by positivity
  rw [PyFloat.lt, PyFloat.val, PyFloat.val, div_lt_div_iff₀ h10 h10b]
  rw [decide_eq_true_eq]
  constructor
  · intro h
    have : ((a.num * 10 ^ b.exp : ℕ) : ℚ) < ((b.num * 10 ^ a.exp : ℕ) : ℚ) := by
      exact_mod_cast h
    calc (a.num : ℚ) * (10 : ℚ) ^ b.exp = ((a.num * 10 ^ b.exp : ℕ) : ℚ) := by
          push_cast; ring
      _ < ((b.num * 10 ^ a.exp : ℕ) : ℚ) := this
      _ = (b.num : ℚ) * (10 : ℚ) ^ a.exp := by push_cast; ring
  · intro h
    have : ((a.num * 10 ^ b.exp : ℕ) : ℚ) < ((b.num * 10 ^ a.exp : ℕ) : ℚ) := by
      push_cast
      calc (a.num : ℚ) * (10 : ℚ) ^ b.exp < (b.num : ℚ) * (10 : ℚ) ^ a.exp := h
        _ = _ := by ring
    exact_mod_cast this

theorem PyFloat.le_refl (a : PyFloat) : a.le a = true := by
  rw [PyFloat.le_iff_val]

theorem PyFloat.le_trans {a b c : PyFloat} (h1 : a.le b = true) (h2 : b.le c = true) :
    a.le c = true := by
  rw [PyFloat.le_iff_val] at h1 h2 ⊢
  exact h1.trans h2

theorem PyFloat.le_of_lt {a b : PyFloat} (h : a.lt b = true) : a.le b = true := by
  rw [PyFloat.lt_iff_val] at h
  rw [PyFloat.le_iff_val]
  exact h.le

theorem PyFloat.le_of_not_lt {a b : PyFloat} (h : ¬ a.lt b = true) : b.le a = true := by
  rw [PyFloat.lt_iff_val] at h
  rw [PyFloat.le_iff_val]
  exact not_lt.mp h

theorem foldl_maxStep_mem (t : List Cand) :
    ∀ c : Cand, t.foldl maxStep c ∈ c :: t := by
  induction t with
  | nil => intro c; exact List.mem_singleton.mpr rfl
  | cons x t ih =>
    intro c
    have h := ih (maxStep c x)
    rw [List.foldl_cons]
    rcases List.mem_cons.mp h with h | h
    · rw [h]
      unfold maxStep
      split
      · exact List.mem_cons_of_mem _ (List.mem_cons_self _ _)
      · exact List.mem_cons_self _ _
    · exact List.mem_cons_of_mem _ (List.mem_cons_of_mem _ h)

theorem foldl_maxStep_ge (t : List Cand) :
    ∀ c : Cand, ∀ y ∈ c :: t, y.amount.le (t.foldl maxStep c).amount = true := by
  induction t with
  | nil =>
    intro c y hy
    rw [List.mem_singleton.mp hy]
    exact PyFloat.le_refl _
  | cons x t ih =>
    intro c y hy
    have hc : c.amount.le (maxStep c x).amount = true := by
      unfold maxStep
      split
      · next h => exact PyFloat.le_of_lt h
      · exact PyFloat.le_refl _
    have hx : x.amount.le (maxStep c x).amount = true := by
      unfold maxStep
      split
      · exact PyFloat.le_refl _
      · next h => exact PyFloat.le_of_not_lt h
    rw [List.foldl_cons]
    rcases List.mem_cons.mp hy with h | h
    · rw [h]
      exact PyFloat.le_trans hc (ih (maxStep c x) _ (List.mem_cons_self _ _))
    · rcases List.mem_cons.mp h with h | h
      · rw [h]
        exact PyFloat.le_trans hx (ih (maxStep c x) _ (List.mem_cons_self _ _))
      · exact ih (maxStep c x) _ (List.mem_cons_of_mem _ h)

theorem pymaxAmount_mem {l : List Cand} {c : Cand} (h : pymaxAmount l = some c) :
    c ∈ l := by
  cases l with
  | nil => simp [pymaxAmount] at h
  | cons a t =>
    rw [pymaxAmount] at h
    have heq : t.foldl maxStep a = c := Option.some_inj.mp h
    rw [← heq]
    exact foldl_maxStep_mem t a

theorem pymaxAmount_ge {l : List Cand} {c : Cand} (h : pymaxAmount l = some c) :
    ∀ y ∈ l, y.amount.le c.amount = true := by
  cases l with
  | nil => simp [pymaxAmount] at h
  | cons a t =>
    rw [pymaxAmount] at h
    intro y hy
    rw [← Option.some_inj.mp h]
    exact foldl_maxStep_ge t a y hy

/-! ## The selection precedence -/

/-- The precedence pool actually implemented by lines 144-156, stated
declaratively: the first nonempty class among (1) negative candidates whose
line holds a two-decimal number, (2) any negative candidate, (3) candidates
whose line holds a two-decimal number and a total keyword, (4) candidates
whose line holds a two-decimal number, (5) candidates whose line holds a
total keyword, (6) all candidates. -/
def precPool (cs : List Cand) : List Cand :=
  let dec := cs.filter (fun c => hasTwoDecimals c.line)
  let negDec := dec.filter (fun c => c.negative)
  let negAll := cs.filter (fun c => c.negative)
  let totDec := dec.filter (fun c => hasTotalKw c.line)
  let totAll := cs.filter (fun c => hasTotalKw c.line)
  if !negDec.isEmpty then negDec
  else if !negAll.isEmpty then negAll
  else if !totDec.isEmpty then totDec
  else if !dec.isEmpty then dec
  else if !totAll.isEmpty then totAll
  else cs

theorem chain_eq (all dec negDec negAll totDec totAll : List Cand)
    (hts : dec.isEmpty = true → totDec.isEmpty = true) :
    (if !(orNE negDec negAll).isEmpty then pymaxAmount (orNE negDec negAll)
     else if !dec.isEmpty then pymaxAmount (orNE totDec dec)
     else pymaxAmount (orNE totAll all)) =
    pymaxAmount
      (if !negDec.isEmpty then negDec
       else if !negAll.isEmpty then negAll
       else if !totDec.isEmpty then totDec
       else if !dec.isEmpty then dec
       else if !totAll.isEmpty then totAll
       else all) := by
  cases negDec <;> cases negAll <;> cases dec <;> cases totDec <;> cases totAll <;>
    simp_all [orNE]

theorem choose_eq_pymax (cs : List Cand) : choose cs = pymaxAmount (precPool cs) := by
  simp only [choose, precPool]
  refine chain_eq cs _ _ _ _ _ (fun h => ?_)
  rw [List.isEmpty_iff] at h ⊢
  rw [h]
  rfl

/-- The four-class precedence pool asserted by the specification sentence
"explicit negative decimal > total-labeled decimal > any decimal > any
candidate": the first nonempty class among (1) negative two-decimal
candidates, (2) total-labeled two-decimal candidates, (3) two-decimal
candidates, (4) all candidates. -/
def claimedPool (cs : List Cand) : List Cand :=
  let dec := cs.filter (fun c => hasTwoDecimals c.line)
  let negDec := dec.filter (fun c => c.negative)
  let totDec := dec.filter (fun c => hasTotalKw c.line)
  if !negDec.isEmpty then negDec
  else if !totDec.isEmpty then totDec
  else if !dec.isEmpty then dec
  else cs

/-- Claim C1, counterexample.  On the OCR text consisting of the line `-5`
and the line `Total 45.00`, the extractor returns amount 5: the negative
non-decimal candidate 5 wins over the total-labeled two-decimal candidate
45.00, because the code falls back from negative decimal candidates to any
negative candidate before considering total-labeled decimals.  The claimed
four-class precedence would require the amount of a candidate of the first
nonempty claimed class, all of which have amount 45.00. -/
theorem claim_C1_counterexample :
    parseReceiptH (strOf "-5\nTotal 45.00") =
      some { amount := ⟨5, 0⟩, currency := strOf "CNY" } ∧
    ¬ ∃ c ∈ claimedPool (extractCandidates (strOf "-5\nTotal 45.00")),
        (⟨5, 0⟩ : PyFloat) = c.amount := by
  constructor
  · decide
  · decide

/-- Claim C1, amended: the chosen candidate follows the precedence
implemented at lines 144-156 of services/llm.py, which has six classes:
an explicitly negative candidate on a two-decimal line, then any explicitly
negative candidate, then a total-labeled candidate on a two-decimal line,
then any candidate on a two-decimal line, then a total-labeled candidate,
then any candidate; within the winning class a candidate with the largest
amount is chosen (`precPool` lists the classes in this order). -/
theorem claim_C1_amended (ocr : Str) (r : RcptRes)
    (h : parseReceiptH ocr = some r) :
    ∃ c ∈ precPool (extractCandidates ocr),
      r.amount = c.amount ∧
      ∀ x ∈ precPool (extractCandidates ocr), x.amount.le c.amount = true := by
  rw [parseReceiptH] at h
  rcases hc : choose (extractCandidates ocr) with _ | c
  · rw [hc] at h
    exact absurd h (by simp)
  · rw [hc] at h
    rw [choose_eq_pymax] at hc
    refine ⟨c, pymaxAmount_mem hc, ?_, pymaxAmount_ge hc⟩
    have := Option.some_inj.mp h
    rw [← this]

/-- Witness for `claim_C1_amended` at the concrete OCR text used in the
counterexample, discharging its hypothesis by evaluation. -/
theorem claim_C1_amended_witness :
    ∃ c ∈ precPool (extractCandidates (strOf "-5\nTotal 45.00")),
      ({ amount := ⟨5, 0⟩, currency := strOf "CNY" } : RcptRes).amount = c.amount ∧
      ∀ x ∈ precPool (extractCandidates (strOf "-5\nTotal 45.00")),
        x.amount.le c.amount = true :=
  claim_C1_amended (strOf "-5\nTotal 45.00")
    { amount := ⟨5, 0⟩, currency := strOf "CNY" } (by decide)

/-! ## `parse_expense_text` (services/llm.py lines 262-307)

The LLM call at lines 270-280 is external; its outcome is a parameter of
the embedding (`LlmOutcome`).  A dict parsed from the LLM answer is
modelled by `LlmDict`: the truthiness of `parsed.get("is_expense")`, the
values of the keys the function reads, with `none` for an absent key (a
non-string currency value behaves exactly like a string outside
CNY and HKD, so `Option Str` covers the branch structure).  The returned
dict is modelled by `PyResult`; the `error` key, which no claim mentions,
is not carried. -/

structure LlmDict where
  is_expense : Bool
  currency : Option Str
  amount : Option ℚ
  category : Option Str
  item : Option Str
deriving DecidableEq

inductive LlmOutcome where
  /-- The client call or `json.loads` raised (caught at line 303). -/
  | failure
  /-- `json.loads` returned a value that is not a dict (line 281). -/
  | nonDict
  /-- `json.loads` returned a dict. -/
  | dict (d : LlmDict)
deriving DecidableEq

structure PyResult where
  is_expense : Bool
  amount : Option ℚ
  currency : Option Str
  category : Option Str
  item : Option Str
deriving DecidableEq

/-- The dict of a successful `_simple_parse`, as a parse result. -/
def SimpleRes.toResult (f : SimpleRes) : PyResult :=
  { is_expense := true, amount := some f.amount.val, currency := some f.currency,
    category := some f.category, item := some f.item }

/-- A result with a falsy `is_expense` (lines 267, 285, 307). -/
def noExpense : PyResult :=
  { is_expense := false, amount := none, currency := none, category := none,
    item := none }

/-- The pattern `fallback = _simple_parse(text); if fallback: return
fallback; return dflt` of lines 264-267, 282-285 and 304-307; an exception
inside `_simple_parse` propagates (at line 304 it is raised from an except
handler, at line 264 there is no handler). -/
def fallbackOr (text : Str) (dflt : PyResult) : Except Unit PyResult :=
  match simpleParse text with
  | .error e => .error e
  | .ok (some f) => .ok f.toResult
  | .ok none => .ok dflt

/-- The currency, amount and item fixups of lines 290-301 applied to a
parsed dict, followed by `return parsed`.  The `_simple_parse` calls at
lines 292 and 297 sit inside the `try`, but when they raise, the handler at
line 304 calls `_simple_parse` again on the same text and the same
exception propagates, so a raising `_simple_parse` makes the whole function
raise. -/
def dictFixups (text : Str) (d : LlmDict) : Except Unit PyResult :=
  match (if d.currency = some (strOf "CNY") ∨ d.currency = some (strOf "HKD")
         then .ok d.currency
         else match simpleParse text with
              | .error e => .error e
              | .ok (some f) => .ok (some f.currency)
              | .ok none => .ok d.currency : Except Unit (Option Str)) with
  | .error e => .error e
  | .ok curFixed =>
    match (match d.amount with
           | some a => .ok (some a)
           | none => match simpleParse text with
                     | .error e => .error e
                     | .ok (some f) => .ok (some f.amount.val)
                     | .ok none => .ok none : Except Unit (Option ℚ)) with
    | .error e => .error e
    | .ok amtFixed =>
      .ok { is_expense := d.is_expense, amount := amtFixed, currency := curFixed,
            category := d.category,
            item := match d.item with
                    | some s => if s.isEmpty then some (stripPy text) else some s
                    | none => some (stripPy text) }

/-- Embedding of `parse_expense_text`, parameterised by whether
`DEEPSEEK_API_KEY` is set and by the LLM outcome. -/
def parseExpenseText (hasApiKey : Bool) (text : Str) (llm : LlmOutcome) :
    Except Unit PyResult :=
  if !hasApiKey then fallbackOr text noExpense
  else
    match llm with
    | .failure => fallbackOr text noExpense
    | .nonDict => fallbackOr text noExpense
    | .dict d =>
      if !d.is_expense then
        match simpleParse text with
        | .error e => .error e
        | .ok (some f) => .ok f.toResult
        | .ok none => dictFixups text d
      else dictFixups text d

/-! ## Claims about `_simple_parse` -/

/-- Claim C4: the claim says the amount returned by `_simple_parse` is the
numeric value of the first numeric token including its decimal part, so for
"coffee 4.50" it should be 4.50.  The code disagrees: because of the doubled
backslash in the raw-string pattern at line 99 the captured group is only
the integer digit run, and the returned amount for "coffee 4.50" is 4, not
4.50 (`PyFloat.val ⟨4, 0⟩ = 4 ≠ 4.5`). -/
theorem claim_C4_code_evaluation :
    simpleParse (strOf "coffee 4.50") =
      .ok (some { amount := ⟨4, 0⟩, currency := strOf "CNY",
                  category := strOf "其他", item := strOf "coffee 4.50" }) ∧
    (⟨4, 0⟩ : PyFloat).val ≠ (9/2 : ℚ) := by
  constructor
  · decide
  · rw [PyFloat.val]
    norm_num

/-- Claim C9: whenever the input text contains the character 块 or the
character 元 (also inside a longer token such as 港元) and `_simple_parse`
returns a parsed dict, its currency is CNY: the 块/元 test at line 97 runs
after the HKD keyword test and overwrites the currency unconditionally. -/
theorem claim_C9_kuai_yuan_cny (text : Str) (r : SimpleRes)
    (hk : text.contains '块' = true ∨ text.contains '元' = true)
    (h : simpleParse text = .ok (some r)) :
    r.currency = strOf "CNY" := by
  rw [simpleParse] at h
  have hcond : (text.contains '块' || text.contains '元') = true := by
    rcases hk with hk | hk
    · rw [hk, Bool.true_or]
    · rw [hk, Bool.or_true]
  rw [hcond] at h
  rcases hdrop : text.dropWhile (fun c => !c.isDigit) with _ | ⟨c, cs⟩
  · rw [hdrop] at h
    dsimp only at h
    exact absurd (Except.ok.inj h) (by simp)
  · rw [hdrop] at h
    dsimp only at h
    by_cases hbs : (numGroupSimple (c :: cs)).contains '\\' = true
    · rw [if_pos hbs] at h
      exact absurd h (by simp)
    · rw [if_neg hbs] at h
      have := Option.some_inj.mp (Except.ok.inj h)
      rw [← this]
      rfl

/-- Witness for `claim_C9_kuai_yuan_cny` at the text 港元5, whose 元 makes
the final currency CNY even though the HKD test fired first. -/
theorem claim_C9_witness :
    ((strOf "港元5").contains '块' = true ∨ (strOf "港元5").contains '元' = true) ∧
    ({ amount := ⟨5, 0⟩, currency := strOf "CNY", category := strOf "其他",
       item := strOf "港元5" } : SimpleRes).currency = strOf "CNY" :=
  ⟨Or.inr (by decide),
   claim_C9_kuai_yuan_cny (strOf "港元5") _ (Or.inr (by decide)) (by decide)⟩

/-! ## The currency invariant (claim C3) -/

/-- Every parsed dict produced by `_simple_parse` carries currency CNY or
HKD: the assignment chain of lines 92-98 only ever writes these two. -/
theorem simple_currency_shape {text : Str} {f : SimpleRes}
    (h : simpleParse text = .ok (some f)) :
    f.currency = strOf "CNY" ∨ f.currency = strOf "HKD" := by
  rw [simpleParse] at h
  rcases hdrop : text.dropWhile (fun c => !c.isDigit) with _ | ⟨c, cs⟩
  · rw [hdrop] at h
    dsimp only at h
    exact absurd (Except.ok.inj h) (by simp)
  · rw [hdrop] at h
    dsimp only at h
    by_cases hbs : (numGroupSimple (c :: cs)).contains '\\' = true
    · rw [if_pos hbs] at h
      exact absurd h (by simp)
    · rw [if_neg hbs] at h
      have := Option.some_inj.mp (Except.ok.inj h)
      rw [← this]
      dsimp only
      split_ifs <;> simp

theorem modCur_shape (tl : Str) :
    moduleCurrency tl = none ∨ moduleCurrency tl = some (strOf "CNY") ∨
      moduleCurrency tl = some (strOf "HKD") := by
  rw [moduleCurrency]
  split_ifs <;> simp

theorem mem_lineCands_currency {modCur : Option Str} {ln : Str} {c : Cand}
    (h : c ∈ lineCands modCur ln) : c.currency = candCurrency ln modCur := by
  rw [lineCands] at h
  split at h
  · rcases List.mem_map.mp h with ⟨g, _, rfl⟩
    rfl
  · exact absurd h (List.not_mem_nil c)

theorem candCur_shape (ln : Str) {modCur : Option Str}
    (hm : modCur = none ∨ modCur = some (strOf "CNY") ∨ modCur = some (strOf "HKD")) :
    candCurrency ln modCur = none ∨ candCurrency ln modCur = some (strOf "CNY") ∨
      candCurrency ln modCur = some (strOf "HKD") := by
  rw [candCurrency]
  split_ifs
  · simp
  · simp
  · exact hm

theorem precPool_subset (cs : List Cand) : ∀ x ∈ precPool cs, x ∈ cs := by
  intro x hx
  rw [precPool] at hx
  split_ifs at hx
  all_goals first
    | exact List.mem_of_mem_filter (List.mem_of_mem_filter hx)
    | exact List.mem_of_mem_filter hx
    | exact hx

/-- Every result of `_parse_receipt_heuristics` carries currency CNY or
HKD: each candidate currency is `HKD`, `CNY` or the text-level guess, and
the final fallback is `CNY` (line 160). -/
theorem receipt_currency_shape {ocr : Str} {r : RcptRes}
    (h : parseReceiptH ocr = some r) :
    r.currency = strOf "CNY" ∨ r.currency = strOf "HKD" := by
  rw [parseReceiptH] at h
  rcases hc : choose (extractCandidates ocr) with _ | c
  · rw [hc] at h
    exact absurd h (by simp)
  · rw [hc] at h
    dsimp only at h
    have hmem : c ∈ extractCandidates ocr := by
      rw [choose_eq_pymax] at hc
      exact precPool_subset _ c (pymaxAmount_mem hc)
    rw [extractCandidates] at hmem
    rcases List.mem_flatMap.mp hmem with ⟨ln, _, hln⟩
    have hcur := mem_lineCands_currency hln
    have hshape := candCur_shape ln (modCur_shape (lowerPy ocr))
    rw [← hcur] at hshape
    have hr := Option.some_inj.mp h
    rw [← hr]
    dsimp only
    rcases hshape with hs | hs | hs <;>
      rcases modCur_shape (lowerPy ocr) with hm | hm | hm <;>
        simp [hs, hm]

theorem fallbackOr_ok {text : Str} {dflt r : PyResult}
    (h : fallbackOr text dflt = .ok r) :
    r = dflt ∨ ∃ f, simpleParse text = .ok (some f) ∧ r = f.toResult := by
  rw [fallbackOr] at h
  rcases hs : simpleParse text with e | fo
  · rw [hs] at h
    exact absurd h (by simp)
  · rcases fo with _ | f
    · rw [hs] at h
      dsimp only at h
      exact Or.inl (Except.ok.inj h).symm
    · rw [hs] at h
      dsimp only at h
      exact Or.inr ⟨f, rfl, (Except.ok.inj h).symm⟩

theorem dictFixups_ok {text : Str} {d : LlmDict} {r : PyResult}
    (h : dictFixups text d = .ok r) :
    r.is_expense = d.is_expense ∧
    (((d.currency = some (strOf "CNY") ∨ d.currency = some (strOf "HKD")) ∧
        r.currency = d.currency) ∨
      (∃ f, simpleParse text = .ok (some f) ∧ r.currency = some f.currency) ∨
      (simpleParse text = .ok none ∧ r.currency = d.currency)) := by
  rw [dictFixups] at h
  by_cases hc : d.currency = some (strOf "CNY") ∨ d.currency = some (strOf "HKD")
  · rw [if_pos hc] at h
    dsimp only at h
    rcases ha : d.amount with _ | a
    · rw [ha] at h
      dsimp only at h
      rcases hs : simpleParse text with e | fo
      · rw [hs] at h
        exact absurd h (by simp)
      · rcases fo with _ | f
        all_goals rw [hs] at h
        all_goals dsimp only at h
        all_goals rw [← (Except.ok.inj h)]
        · exact ⟨rfl, Or.inl ⟨hc, rfl⟩⟩
        · exact ⟨rfl, Or.inl ⟨hc, rfl⟩⟩
    · rw [ha] at h
      dsimp only at h
      rw [← (Except.ok.inj h)]
      exact ⟨rfl, Or.inl ⟨hc, rfl⟩⟩
  · rw [if_neg hc] at h
    rcases hs : simpleParse text with e | fo
    · rw [hs] at h
      dsimp only at h
      exact absurd h (by simp)
    · rcases fo with _ | f
      · rw [hs] at h
        dsimp only at h
        rcases ha : d.amount with _ | a
        all_goals rw [ha] at h
        all_goals dsimp only at h
        all_goals rw [← (Except.ok.inj h)]
        · exact ⟨rfl, Or.inr (Or.inr ⟨rfl, rfl⟩)⟩
        · exact ⟨rfl, Or.inr (Or.inr ⟨rfl, rfl⟩)⟩
      · rw [hs] at h
        dsimp only at h
        rcases ha : d.amount with _ | a
        all_goals rw [ha] at h
        all_goals dsimp only at h
        all_goals rw [← (Except.ok.inj h)]
        · exact ⟨rfl, Or.inr (Or.inl ⟨f, rfl, rfl⟩)⟩
        · exact ⟨rfl, Or.inr (Or.inl ⟨f, rfl, rfl⟩)⟩

/-- The side condition under which the amended currency invariant holds for
`parse_expense_text`: when the LLM returned a dict, its currency must
already be one of the two codes, or `_simple_parse` must produce a dict for
the same text (otherwise line 294 is skipped and the foreign currency
survives). -/
def llmCurrencyOk (text : Str) : LlmOutcome → Prop
  | .dict d => d.currency = some (strOf "CNY") ∨ d.currency = some (strOf "HKD") ∨
      ∃ f, simpleParse text = .ok (some f)
  | _ => True

theorem parse_currency_shape {hasApiKey : Bool} {text : Str} {llm : LlmOutcome}
    {r : PyResult} (h : parseExpenseText hasApiKey text llm = .ok r)
    (hexp : r.is_expense = true) (hok : llmCurrencyOk text llm) :
    r.currency = some (strOf "CNY") ∨ r.currency = some (strOf "HKD") := by
  have fromFallback : fallbackOr text noExpense = .ok r →
      r.currency = some (strOf "CNY") ∨ r.currency = some (strOf "HKD") := by
    intro hf
    rcases fallbackOr_ok hf with hne | ⟨f, hs, hres⟩
    · rw [hne] at hexp
      exact absurd hexp (by simp [noExpense])
    · rw [hres, SimpleRes.toResult]
      rcases simple_currency_shape hs with hcny | hhkd
      · exact Or.inl (by rw [hcny])
      · exact Or.inr (by rw [hhkd])
  have fromFixups : ∀ d : LlmDict, llmCurrencyOk text (.dict d) →
      dictFixups text d = .ok r →
      r.currency = some (strOf "CNY") ∨ r.currency = some (strOf "HKD") := by
    intro d hokd hf
    rcases dictFixups_ok hf with ⟨_, hcur⟩
    rcases hcur with ⟨hgood, hre⟩ | ⟨f, hs, hre⟩ | ⟨hnone, hre⟩
    · rcases hgood with g | g
      · exact Or.inl (by rw [hre, g])
      · exact Or.inr (by rw [hre, g])
    · rcases simple_currency_shape hs with hcny | hhkd
      · exact Or.inl (by rw [hre, hcny])
      · exact Or.inr (by rw [hre, hhkd])
    · rcases hokd with g | g | ⟨f, hf2⟩
      · exact Or.inl (by rw [hre, g])
      · exact Or.inr (by rw [hre, g])
      · rw [hf2] at hnone
        exact absurd (Except.ok.inj hnone) (by simp)
  rw [parseExpenseText.eq_def] at h
  cases hasApiKey with
  | false =>
    rw [Bool.not_false, if_pos rfl] at h
    exact fromFallback h
  | true =>
    rw [Bool.not_true, if_neg Bool.false_ne_true] at h
    cases llm with
    | failure => exact fromFallback h
    | nonDict => exact fromFallback h
    | dict d =>
      dsimp only at h
      split at h
      · rcases hs : simpleParse text with e | fo
        · rw [hs] at h
          exact absurd h (by simp)
        · rcases fo with _ | f
          · rw [hs] at h
            dsimp only at h
            exact fromFixups d hok h
          · rw [hs] at h
            dsimp only at h
            rw [← (Except.ok.inj h), SimpleRes.toResult]
            rcases simple_currency_shape hs with hcny | hhkd
            · exact Or.inl (by rw [hcny])
            · exact Or.inr (by rw [hhkd])
      · exact fromFixups d hok h

/-- Claim C3, counterexample.  With the API key set, take the text "hello"
(which has no digits, so `_simple_parse` yields `None`) and an LLM reply
`{"is_expense": true, "currency": "USD", "amount": 5, ...}`: line 292
computes no fallback, so the currency fixup at line 294 is skipped and
`parse_expense_text` returns a dict whose `is_expense` is true and whose
currency is "USD", not one of the two fixed codes. -/
theorem claim_C3_counterexample :
    parseExpenseText true (strOf "hello")
        (.dict { is_expense := true, currency := some (strOf "USD"),
                 amount := some 5, category := some (strOf "其他"),
                 item := some (strOf "x") }) =
      .ok { is_expense := true, amount := some 5, currency := some (strOf "USD"),
            category := some (strOf "其他"), item := some (strOf "x") } ∧
    strOf "USD" ≠ strOf "CNY" ∧ strOf "USD" ≠ strOf "HKD" :=
  ⟨rfl, by decide, by decide⟩

/-- Claim C3, amended: the currency invariant holds unconditionally for
`_simple_parse` and `_parse_receipt_heuristics`; for `parse_expense_text`
it holds for every LLM outcome that is not a dict, and for dict outcomes
under the side condition `llmCurrencyOk` (LLM currency already CNY/HKD, or
`_simple_parse` yields a dict for the text), which the counterexample shows
cannot be dropped. -/
theorem claim_C3_amended :
    (∀ text : Str, ∀ f : SimpleRes, simpleParse text = .ok (some f) →
        f.currency = strOf "CNY" ∨ f.currency = strOf "HKD") ∧
    (∀ ocr : Str, ∀ r : RcptRes, parseReceiptH ocr = some r →
        r.currency = strOf "CNY" ∨ r.currency = strOf "HKD") ∧
    (∀ (hasApiKey : Bool) (text : Str) (llm : LlmOutcome) (r : PyResult),
        parseExpenseText hasApiKey text llm = .ok r → r.is_expense = true →
        llmCurrencyOk text llm →
        r.currency = some (strOf "CNY") ∨ r.currency = some (strOf "HKD")) :=
  ⟨fun _ _ h => simple_currency_shape h,
   fun _ _ h => receipt_currency_shape h,
   fun _ _ _ _ h hexp hok => parse_currency_shape h hexp hok⟩

/-- Witness for `claim_C3_amended`: each conjunct applied at a concrete
input, discharging the hypotheses by evaluation. -/
theorem claim_C3_amended_witness :
    (({ amount := ⟨200, 0⟩, currency := strOf "CNY", category := strOf "餐饮",
        item := strOf "买菜 200" } : SimpleRes).currency = strOf "CNY" ∨
     ({ amount := ⟨200, 0⟩, currency := strOf "CNY", category := strOf "餐饮",
        item := strOf "买菜 200" } : SimpleRes).currency = strOf "HKD") ∧
    (({ amount := ⟨4500, 2⟩, currency := strOf "HKD" } : RcptRes).currency =
        strOf "CNY" ∨
     ({ amount := ⟨4500, 2⟩, currency := strOf "HKD" } : RcptRes).currency =
        strOf "HKD") ∧
    (({ is_expense := true, amount := some 3, currency := some (strOf "CNY"),
        category := some (strOf "其他"), item := some (strOf "x") } :
          PyResult).currency = some (strOf "CNY") ∨
     ({ is_expense := true, amount := some 3, currency := some (strOf "CNY"),
        category := some (strOf "其他"), item := some (strOf "x") } :
          PyResult).currency = some (strOf "HKD")) :=
  ⟨claim_C3_amended.1 (strOf "买菜 200") _ (by decide),
   claim_C3_amended.2.1 (strOf "STARBUCKS\nTotal HKD 45.00") _ (by decide),
   claim_C3_amended.2.2 true (strOf "hi")
     (.dict { is_expense := true, currency := some (strOf "CNY"), amount := some 3,
              category := some (strOf "其他"), item := some (strOf "x") })
     _ rfl rfl (Or.inl rfl)⟩

/-- Claim C5: the claim says `parse_expense_text` never raises.  The code
disagrees on any text in which a literal backslash separates two digit
runs: the doubled backslash in the `_simple_parse` pattern (line 99) makes
the captured group contain the backslash, `float(...)` raises `ValueError`,
and the call sites at lines 264 and 304 have no handler around
`_simple_parse` (at line 304 the call sits inside the handler itself), so
the exception escapes `parse_expense_text` both without an API key and with
one when the LLM call fails. -/
theorem claim_C5_code_evaluation :
    simpleParse (strOf "4\\b12") = .error () ∧
    parseExpenseText false (strOf "4\\b12") .failure = .error () ∧
    parseExpenseText true (strOf "4\\b12") .failure = .error () :=
  ⟨rfl, rfl, rfl⟩

/-! ## Module-level imports (claim C2)

`services/bot.py` line 8 reads `from .llm import parse_expense_text,
parse_expense_image, translate_to_chinese`.  A `from`-import succeeds only
for names bound at top level of the imported module; the import statement
runs when the bot module is loaded. -/

/-- The names bot.py imports from the llm service module (bot.py line 8). -/
def botLlmImports : List String :=
  ["parse_expense_text", "parse_expense_image", "translate_to_chinese"]

/-- Every name bound at top level of services/llm.py: the imports of lines
1-5, the assignments of lines 9, 10, 12 and 14, and the function
definitions of lines 55, 74, 90, 113, 248 and 262. -/
def llmModuleNames : List String :=
  ["os", "json", "re", "OpenAI", "load_dotenv",
   "DEEPSEEK_API_KEY", "BASE_URL", "client", "SYSTEM_PROMPT",
   "_run_ocr", "parse_expense_image", "_simple_parse",
   "_parse_receipt_heuristics", "_clean_ocr_for_llm", "parse_expense_text"]

/-- Claim C2: the claim says every name bot.py imports from the llm module
is defined there, in particular `translate_to_chinese`.  The code
disagrees: no top-level binding of llm.py is called `translate_to_chinese`,
so loading the bot module raises `ImportError` at its line 8. -/
theorem claim_C2_code_evaluation :
    "translate_to_chinese" ∈ botLlmImports ∧
    "translate_to_chinese" ∉ llmModuleNames := by
  decide

/-! ## `BotState` (claim C6): services/bot.py lines 13-46

The BotState table is modelled as a list of rows `(user_id, data)` in
insertion order, the payload dict as an arbitrary type.
`db.query(BotState).filter(BotState.user_id == user_id).first()` returns
the first row of the table with that user id. -/

/-- Embedding of `set_state`: update the data of the first row with this
user id in place, or append a fresh row when none exists (lines 16-22). -/
def setState {α : Type} (uid : Str) (d : α) : List (Str × α) → List (Str × α)
  | [] => [(uid, d)]
  | (u, x) :: t => if u = uid then (u, d) :: t else (u, x) :: setState uid d t

/-- Embedding of `get_state`: return the data of the first row with this
user id and delete that row (read and clear, lines 32-40); `none` and the
unchanged table when there is no such row. -/
def getState {α : Type} (uid : Str) : List (Str × α) → Option α × List (Str × α)
  | [] => (none, [])
  | (u, x) :: t =>
    if u = uid then (some x, t)
    else
      let p := getState uid t
      (p.1, (u, x) :: p.2)

theorem setState_keys {α : Type} (uid : Str) (d : α) (rows : List (Str × α)) :
    (setState uid d rows).map Prod.fst = rows.map Prod.fst ∨
    (setState uid d rows).map Prod.fst = rows.map Prod.fst ++ [uid] := by
  induction rows with
  | nil => exact Or.inr rfl
  | cons r t ih =>
    rcases r with ⟨u, x⟩
    by_cases hu : u = uid
    · rw [setState, if_pos hu]
      exact Or.inl rfl
    · rw [setState, if_neg hu]
      rcases ih with ih | ih
      · exact Or.inl (by rw [List.map_cons, List.map_cons, ih])
      · exact Or.inr (by rw [List.map_cons, List.map_cons, ih]; rfl)

theorem setState_nodup {α : Type} (uid : Str) (d : α) (rows : List (Str × α))
    (h : (rows.map Prod.fst).Nodup) : ((setState uid d rows).map Prod.fst).Nodup := by
  induction rows with
  | nil => simp [setState]
  | cons r t ih =>
    rcases r with ⟨u, x⟩
    rw [List.map_cons, List.nodup_cons] at h
    by_cases hu : u = uid
    · rw [setState, if_pos hu, List.map_cons, List.nodup_cons]
      exact h
    · rw [setState, if_neg hu, List.map_cons, List.nodup_cons]
      refine ⟨?_, ih h.2⟩
      rcases setState_keys uid d t with hk | hk
      · rw [hk]; exact h.1
      · rw [hk]
        intro hmem
        rcases List.mem_append.mp hmem with hmem | hmem
        · exact h.1 hmem
        · exact hu (List.mem_singleton.mp hmem)

theorem getState_after_set {α : Type} (uid : Str) (d : α) (rows : List (Str × α)) :
    (getState uid (setState uid d rows)).1 = some d := by
  induction rows with
  | nil => simp [setState, getState]
  | cons r t ih =>
    rcases r with ⟨u, x⟩
    by_cases hu : u = uid
    · rw [setState, if_pos hu, getState, if_pos hu]
    · rw [setState, if_neg hu, getState, if_neg hu]
      exact ih

theorem getState_not_found {α : Type} (uid : Str) (rows : List (Str × α))
    (h : uid ∉ rows.map Prod.fst) : (getState uid rows).1 = none := by
  induction rows with
  | nil => rfl
  | cons r t ih =>
    rcases r with ⟨u, x⟩
    rw [List.map_cons, List.mem_cons] at h
    push_neg at h
    rw [getState, if_neg (fun hu => h.1 hu.symm)]
    exact ih h.2

theorem getState_sublist {α : Type} (uid : Str) (rows : List (Str × α)) :
    (getState uid rows).2.Sublist rows := by
  induction rows with
  | nil => exact List.Sublist.refl []
  | cons r t ih =>
    rcases r with ⟨u, x⟩
    by_cases hu : u = uid
    · rw [getState, if_pos hu]
      exact List.sublist_cons_self _ _
    · rw [getState, if_neg hu]
      exact List.Sublist.cons₂ _ ih

theorem getState_found_clears {α : Type} (uid : Str) (rows : List (Str × α))
    (d : α) (rest : List (Str × α)) (hnd : (rows.map Prod.fst).Nodup)
    (h : getState uid rows = (some d, rest)) :
    (getState uid rest).1 = none ∧ (rest.map Prod.fst).Nodup := by
  induction rows generalizing rest with
  | nil => exact absurd (congrArg Prod.fst h) (by simp [getState])
  | cons r t ih =>
    rcases r with ⟨u, x⟩
    rw [List.map_cons, List.nodup_cons] at hnd
    by_cases hu : u = uid
    · rw [getState, if_pos hu] at h
      have hrest : rest = t := (congrArg Prod.snd h).symm
      rw [hrest]
      refine ⟨getState_not_found uid t ?_, hnd.2⟩
      rw [← hu]
      exact hnd.1
    · rw [getState, if_neg hu] at h
      have h1 : (getState uid t).1 = some d := congrArg Prod.fst h
      have h2 : rest = (u, x) :: (getState uid t).2 := (congrArg Prod.snd h).symm
      have h3 : getState uid t = (some d, (getState uid t).2) := by
        rw [← h1]
      rcases ih (getState uid t).2 hnd.2 h3 with ⟨ihn, ihd⟩
      constructor
      · rw [h2, getState, if_neg hu]
        exact ihn
      · rw [h2, List.map_cons, List.nodup_cons]
        refine ⟨?_, ihd⟩
        intro hmem
        exact hnd.1 (List.Sublist.mem hmem ((getState_sublist uid t).map Prod.fst))

/-- Claim C6: per user id at most one pending draft exists at any time.
With the table keys free of duplicates, `set_state` keeps them so and wins
the last write (a `get_state` right after it returns the new data), and a
`get_state` that returned data has deleted the row: an immediately
following `get_state` returns `None`, and the table keys stay free of
duplicates. -/
theorem claim_C6_single_pending_draft :
    ∀ (α : Type) (uid : Str) (d : α) (rows : List (Str × α)),
      ((rows.map Prod.fst).Nodup → ((setState uid d rows).map Prod.fst).Nodup) ∧
      (getState uid (setState uid d rows)).1 = some d ∧
      (∀ (d2 : α) (rest : List (Str × α)), (rows.map Prod.fst).Nodup →
        getState uid rows = (some d2, rest) →
        (getState uid rest).1 = none ∧ (rest.map Prod.fst).Nodup) :=
  fun _ uid d rows =>
    ⟨setState_nodup uid d rows, getState_after_set uid d rows,
     fun d2 rest hnd h => getState_found_clears uid rows d2 rest hnd h⟩

/-- Witness for `claim_C6_single_pending_draft` on the one-row table of
user u holding 1: setting 2 overwrites, reading clears. -/
theorem claim_C6_witness :
    ((setState (strOf "u") 2 [(strOf "u", 1)]).map Prod.fst).Nodup ∧
    (getState (strOf "u") (setState (strOf "u") 2 [(strOf "u", 1)])).1 = some 2 ∧
    ((getState (strOf "u") ([] : List (Str × Nat))).1 = none ∧
      (([] : List (Str × Nat)).map Prod.fst).Nodup) :=
  ⟨(claim_C6_single_pending_draft Nat (strOf "u") 2 [(strOf "u", 1)]).1 (by decide),
   (claim_C6_single_pending_draft Nat (strOf "u") 2 [(strOf "u", 1)]).2.1,
   (claim_C6_single_pending_draft Nat (strOf "u") 2 [(strOf "u", 1)]).2.2 1 []
     (by decide) (by decide)⟩

/-! ## Transactions (claims C7, C8, C10)

Modelled from the spec: the ORM model file (backend/app/models.py) is not
among the sources, so the Transaction record carries the fields listed in
section 3 of the specification: id, user_id, user_name, amount, currency,
category, item, raw_text, receipt_image_path (optional), created_at.
`created_at` is modelled as an optional epoch second count (a naive UTC
datetime per the comments in main.py), `amount` as an exact rational.  The
transactions table is a list of such records; `query.filter(...).first()`
returns the first matching row. -/

structure Transaction where
  id : Nat
  user_id : Str
  user_name : Str
  amount : ℚ
  currency : Str
  category : Str
  item : Str
  raw_text : Str
  receipt_image_path : Option Str
  created_at : Option Nat
deriving DecidableEq

/-- Python `str(n)` for a transaction id. -/
def natToStr (n : Nat) : Str := (Nat.repr n).toList

/-- The database effect and reply of `/delete` after argument validation
(bot.py lines 259-272): delete the first transaction matching both the id
and the issuing user id; otherwise leave the table unchanged and reply that
the record was not found or permission is lacking (line 263). -/
def deleteCmd (uid : Str) (tid : Nat) :
    List Transaction → List Transaction × Str
  | [] => ([], strOf "未找到该记录或无权限删除")
  | t :: ts =>
    if t.id = tid ∧ t.user_id = uid then
      (ts, strOf "已删除记录 #" ++ natToStr tid)
    else
      let p := deleteCmd uid tid ts
      (t :: p.1, p.2)

/-- The database effect and reply of `/edit` after argument validation and
translation (bot.py lines 295-308): `newItem` is the final item text (after
the optional `translate_to_chinese` call).  The first transaction matching
both the id and the issuing user id gets its item replaced; otherwise the
table is unchanged and the bot replies that the record was not found or
permission is lacking (line 299). -/
def editCmd (uid : Str) (tid : Nat) (newItem : Str) :
    List Transaction → List Transaction × Str
  | [] => ([], strOf "未找到该记录或无权限修改")
  | t :: ts =>
    if t.id = tid ∧ t.user_id = uid then
      ({ t with item := newItem } :: ts,
       strOf "已更新记录 #" ++ natToStr tid ++ strOf " 项目为：" ++ newItem)
    else
      let p := editCmd uid tid newItem ts
      (t :: p.1, p.2)

/-- The update of main.py lines 137-138: store the relative path
`uploads/{filename}` on the transaction. -/
def withReceipt (t : Transaction) (filename : Str) : Transaction :=
  { t with receipt_image_path := some (strOf "uploads/" ++ filename) }

/-- The database effect of the upload-receipt endpoint (main.py lines
110-142): the first transaction with the given id (any user) gets
`receipt_image_path = "uploads/" + filename`; a missing id raises HTTP 404
and leaves the table unchanged.  The generated unique filename (uuid plus
extension) is a parameter. -/
def uploadReceipt (tid : Nat) (filename : Str) :
    List Transaction → Except Unit (List Transaction)
  | [] => .error ()
  | t :: ts =>
    if t.id = tid then
      .ok (withReceipt t filename :: ts)
    else
      match uploadReceipt tid filename ts with
      | .error e => .error e
      | .ok ts' => .ok (t :: ts')

/-- All fields other than `item` agree. -/
def framedExceptItem (t t' : Transaction) : Prop :=
  t'.id = t.id ∧ t'.user_id = t.user_id ∧ t'.user_name = t.user_name ∧
  t'.amount = t.amount ∧ t'.currency = t.currency ∧ t'.category = t.category ∧
  t'.raw_text = t.raw_text ∧ t'.receipt_image_path = t.receipt_image_path ∧
  t'.created_at = t.created_at

/-- All fields other than `receipt_image_path` agree. -/
def framedExceptReceipt (t t' : Transaction) : Prop :=
  t'.id = t.id ∧ t'.user_id = t.user_id ∧ t'.user_name = t.user_name ∧
  t'.amount = t.amount ∧ t'.currency = t.currency ∧ t'.category = t.category ∧
  t'.item = t.item ∧ t'.raw_text = t.raw_text ∧ t'.created_at = t.created_at

theorem editCmd_frame (uid : Str) (tid : Nat) (newItem : Str)
    (tbl : List Transaction) :
    List.Forall₂
      (fun t t' => framedExceptItem t t' ∧
        (t' = t ∨ (t.id = tid ∧ t.user_id = uid ∧ t' = { t with item := newItem })))
      tbl (editCmd uid tid newItem tbl).1 := by
  induction tbl with
  | nil => exact List.Forall₂.nil
  | cons t ts ih =>
    by_cases hm : t.id = tid ∧ t.user_id = uid
    · rw [editCmd, if_pos hm]
      refine List.Forall₂.cons ⟨?_, Or.inr ⟨hm.1, hm.2, rfl⟩⟩ ?_
      · exact ⟨rfl, rfl, rfl, rfl, rfl, rfl, rfl, rfl, rfl⟩
      · rw [List.forall₂_same]
        intro x _
        exact ⟨⟨rfl, rfl, rfl, rfl, rfl, rfl, rfl, rfl, rfl⟩, Or.inl rfl⟩
    · rw [editCmd, if_neg hm]
      exact List.Forall₂.cons
        ⟨⟨rfl, rfl, rfl, rfl, rfl, rfl, rfl, rfl, rfl⟩, Or.inl rfl⟩ ih

theorem uploadReceipt_frame (tid : Nat) (filename : Str)
    (tbl tbl' : List Transaction) (h : uploadReceipt tid filename tbl = .ok tbl') :
    List.Forall₂
      (fun t t' => framedExceptReceipt t t' ∧
        (t' = t ∨ (t.id = tid ∧ t' = withReceipt t filename)))
      tbl tbl' := by
  induction tbl generalizing tbl' with
  | nil => exact absurd h (by simp [uploadReceipt])
  | cons t ts ih =>
    by_cases hm : t.id = tid
    · rw [uploadReceipt, if_pos hm] at h
      rw [← Except.ok.inj h]
      refine List.Forall₂.cons ⟨?_, Or.inr ⟨hm, rfl⟩⟩ ?_
      · exact ⟨rfl, rfl, rfl, rfl, rfl, rfl, rfl, rfl, rfl⟩
      · rw [List.forall₂_same]
        intro x _
        exact ⟨⟨rfl, rfl, rfl, rfl, rfl, rfl, rfl, rfl, rfl⟩, Or.inl rfl⟩
    · rw [uploadReceipt, if_neg hm] at h
      rcases hrec : uploadReceipt tid filename ts with e | ts'
      · rw [hrec] at h
        exact absurd h (by simp)
      · rw [hrec] at h
        dsimp only at h
        rw [← Except.ok.inj h]
        exact List.Forall₂.cons
          ⟨⟨rfl, rfl, rfl, rfl, rfl, rfl, rfl, rfl, rfl⟩, Or.inl rfl⟩ (ih ts' hrec)

/-- Claim C7: the `/edit` command changes only the `item` field of the
targeted transaction (the first one matching the id and the issuing user),
and the upload-receipt endpoint changes only its `receipt_image_path`
field; in both cases every other field of that transaction and all other
transactions are unchanged (stated pointwise over the table). -/
theorem claim_C7_field_frame :
    (∀ (uid : Str) (tid : Nat) (newItem : Str) (tbl : List Transaction),
      List.Forall₂
        (fun t t' => framedExceptItem t t' ∧
          (t' = t ∨ (t.id = tid ∧ t.user_id = uid ∧
            t' = { t with item := newItem })))
        tbl (editCmd uid tid newItem tbl).1) ∧
    (∀ (tid : Nat) (filename : Str) (tbl tbl' : List Transaction),
      uploadReceipt tid filename tbl = .ok tbl' →
      List.Forall₂
        (fun t t' => framedExceptReceipt t t' ∧
          (t' = t ∨ (t.id = tid ∧ t' = withReceipt t filename)))
        tbl tbl') :=
  ⟨editCmd_frame, fun _ _ _ _ h => uploadReceipt_frame _ _ _ _ h⟩

/-- A sample transaction used by the closed witnesses below. -/
def txSample : Transaction :=
  { id := 1, user_id := strOf "a", user_name := strOf "A", amount := 5,
    currency := strOf "CNY", category := strOf "其他", item := strOf "x",
    raw_text := strOf "x 5", receipt_image_path := none, created_at := none }

/-- Witness for `claim_C7_field_frame` on a one-row table. -/
theorem claim_C7_witness :
    List.Forall₂
      (fun t t' => framedExceptItem t t' ∧
        (t' = t ∨ (t.id = 1 ∧ t.user_id = strOf "a" ∧
          t' = { t with item := strOf "y" })))
      [txSample] (editCmd (strOf "a") 1 (strOf "y") [txSample]).1 ∧
    List.Forall₂
      (fun t t' => framedExceptReceipt t t' ∧
        (t' = t ∨ (t.id = 1 ∧ t' = withReceipt t (strOf "f.jpg"))))
      [txSample] [withReceipt txSample (strOf "f.jpg")] :=
  ⟨claim_C7_field_frame.1 (strOf "a") 1 (strOf "y") [txSample],
   claim_C7_field_frame.2 1 (strOf "f.jpg") [txSample]
     [withReceipt txSample (strOf "f.jpg")] rfl⟩

/-- Claim C10: when no stored transaction has the requested id together
with the issuing user id (the id does not exist, or the row belongs to a
different user), `/delete` and `/edit` leave the table entirely unchanged
and reply that the record was not found or permission is lacking. -/
theorem claim_C10_scoped_to_user (uid : Str) (tid : Nat) (newItem : Str)
    (tbl : List Transaction)
    (habs : ∀ t ∈ tbl, ¬(t.id = tid ∧ t.user_id = uid)) :
    deleteCmd uid tid tbl = (tbl, strOf "未找到该记录或无权限删除") ∧
    editCmd uid tid newItem tbl = (tbl, strOf "未找到该记录或无权限修改") := by
  induction tbl with
  | nil => exact ⟨rfl, rfl⟩
  | cons t ts ih =>
    have hm := habs t (List.mem_cons_self _ _)
    have hts : ∀ x ∈ ts, ¬(x.id = tid ∧ x.user_id = uid) :=
      fun x hx => habs x (List.mem_cons_of_mem _ hx)
    rcases ih hts with ⟨ihd, ihe⟩
    constructor
    · rw [deleteCmd, if_neg hm, ihd]
    · rw [editCmd, if_neg hm, ihe]

/-- Witness for `claim_C10_scoped_to_user`: user b targets record 1, which
belongs to user a. -/
theorem claim_C10_witness :
    deleteCmd (strOf "b") 1 [txSample] =
      ([txSample], strOf "未找到该记录或无权限删除") ∧
    editCmd (strOf "b") 1 (strOf "y") [txSample] =
      ([txSample], strOf "未找到该记录或无权限修改") :=
  claim_C10_scoped_to_user (strOf "b") 1 (strOf "y") [txSample]
    (by intro t ht; rw [List.mem_singleton.mp ht]; decide)

/-! ## CSV export (claim C8): main.py lines 144-223

The generated response body is computed in full: the query with its
currency / year / month filters and `created_at` descending order, the
Beijing-time formatting (UTC seconds plus eight hours, `%Y-%m-%d %H:%M:%S`)
and the `csv.writer` serialization of the excel dialect (comma delimiter,
minimal double-quote quoting, CRLF row terminator).  `str()` of a float
amount is rendered as its exact decimal expansion; like the shortest
round-trip repr it is a fixed function of the value, which is all the
idempotence claim needs.  The endpoint performs no insert, update, delete
or commit, so a call returns the table unchanged. -/

/-- Civil date (year, month, day) of a day count since 1970-01-01
(proleptic Gregorian, the standard civil-from-days algorithm, restricted to
nonnegative day counts). -/
def civilFromDays (z0 : Nat) : Nat × Nat × Nat :=
  let z := z0 + 719468
  let era := z / 146097
  let doe := z % 146097
  let yoe := (doe - doe / 1460 + doe / 36524 - doe / 146096) / 365
  let y := yoe + era * 400
  let doy := doe - (365 * yoe + yoe / 4 - yoe / 100)
  let mp := (5 * doy + 2) / 153
  let d := doy - (153 * mp + 2) / 5 + 1
  let m := if mp < 10 then mp + 3 else mp - 9
  (if m ≤ 2 then y + 1 else y, m, d)

def pad2 (n : Nat) : Str := if n < 10 then '0' :: natToStr n else natToStr n

/-- `datetime.strftime("%Y-%m-%d %H:%M:%S")` on an epoch second count
(years 1970-9999 print as four digits). -/
def formatDateTime (secs : Nat) : Str :=
  let days := secs / 86400
  let rem := secs % 86400
  let c := civilFromDays days
  natToStr c.1 ++ '-' :: pad2 c.2.1 ++ '-' :: pad2 c.2.2 ++
    ' ' :: pad2 (rem / 3600) ++ ':' :: pad2 (rem % 3600 / 60) ++
    ':' :: pad2 (rem % 60)

example : formatDateTime 0 = strOf "1970-01-01 00:00:00" := by decide

example : formatDateTime 1717200000 = strOf "2024-06-01 00:00:00" := by decide

example : formatDateTime 951826245 = strOf "2000-02-29 12:10:45" := by decide

def fracDigitsLoop (den : Nat) : Nat → Nat → Str
  | _, 0 => []
  | rem, fuel + 1 =>
    if rem = 0 then []
    else Char.ofNat (48 + rem * 10 / den) :: fracDigitsLoop den (rem * 10 % den) fuel

/-- Deterministic decimal rendering of `str()` on a float amount: integer
part, a dot, and the fractional expansion (at least one digit, cut at 17
digits like the float precision). -/
def ratToStr (q : ℚ) : Str :=
  let sign : Str := if q < 0 then ['-'] else []
  let n := q.num.natAbs
  let ip := n / q.den
  let ds := fracDigitsLoop q.den (n % q.den) 17
  sign ++ natToStr ip ++ '.' :: (if ds.isEmpty then ['0'] else ds)

example : ratToStr 5 = strOf "5.0" := by decide

example : ratToStr (mkRat 9 2) = strOf "4.5" := by decide

/-- One field of the excel dialect with minimal quoting: quote only when
the field holds the delimiter, the quote character or a CR/LF, doubling
inner quotes. -/
def csvField (f : Str) : Str :=
  if f.contains ',' || f.contains '"' || f.contains '\r' || f.contains '\n' then
    '"' :: (f.flatMap (fun c => if c = '"' then ['"', '"'] else [c])) ++ ['"']
  else f

/-- One `writer.writerow(...)`: comma-joined fields plus CRLF. -/
def csvRow (fs : List Str) : Str :=
  (List.intercalate [','] (fs.map csvField)) ++ ['\r', '\n']

/-- The query filters of lines 155-168: a truthy currency parameter must
match exactly; a year (and, only together with it, a month) parameter
compares against `extract` on `created_at`, which excludes rows whose
`created_at` is NULL. -/
structure ExportFilters where
  currency : Option Str
  year : Option Nat
  month : Option Nat
deriving DecidableEq

def yearOf (secs : Nat) : Nat := (civilFromDays (secs / 86400)).1

def monthOf (secs : Nat) : Nat := (civilFromDays (secs / 86400)).2.1

def matchesFilters (f : ExportFilters) (t : Transaction) : Bool :=
  (match f.currency with
   | some c => if c.isEmpty then true else t.currency == c
   | none => true) &&
  (match f.year with
   | some y =>
     (match t.created_at with
      | some secs =>
        (yearOf secs == y) &&
        (match f.month with
         | some mo => monthOf secs == mo
         | none => true)
      | none => false)
   | none => true)

/-- Stable insertion for the `created_at` descending order; rows without a
`created_at` sort last (one fixed order of the SQL result). -/
def caKey (t : Transaction) : Int :=
  match t.created_at with
  | some n => (n : Int)
  | none => -1

def insertDesc (t : Transaction) : List Transaction → List Transaction
  | [] => [t]
  | u :: us => if caKey u ≤ caKey t then t :: u :: us else u :: insertDesc t us

def sortDesc : List Transaction → List Transaction
  | [] => []
  | t :: ts => insertDesc t (sortDesc ts)

/-- The rows returned by the filtered, ordered query of lines 153-170. -/
def exportRows (f : ExportFilters) (tbl : List Transaction) : List Transaction :=
  (sortDesc tbl).filter (matchesFilters f)

/-- The full CSV body of lines 172-210: the header row, then one row per
transaction with the Beijing-shifted timestamp and the empty string for a
missing receipt path. -/
def csvBody (f : ExportFilters) (tbl : List Transaction) : Str :=
  csvRow [strOf "ID", strOf "时间", strOf "记账人", strOf "金额", strOf "币种",
          strOf "类别", strOf "项目", strOf "备注", strOf "票据路径"] ++
  ((exportRows f tbl).flatMap (fun t =>
    csvRow [natToStr t.id,
            (match t.created_at with
             | some secs => formatDateTime (secs + 28800)
             | none => []),
            t.user_name, ratToStr t.amount, t.currency, t.category, t.item,
            t.raw_text, t.receipt_image_path.getD []]))

/-- One call of `GET /export-csv/`: the body it streams and the stored
table as the call leaves it. -/
def exportCsvCall (f : ExportFilters) (tbl : List Transaction) :
    Str × List Transaction :=
  (csvBody f tbl, tbl)

/-- Claim C8: for a fixed stored transaction set and fixed filter
parameters, the export leaves the stored set unchanged, and a second call
on the state left by the first produces the identical CSV body. -/
theorem claim_C8_export_idempotent (f : ExportFilters) (tbl : List Transaction) :
    (exportCsvCall f tbl).2 = tbl ∧
    (exportCsvCall f (exportCsvCall f tbl).2).1 = (exportCsvCall f tbl).1 :=
  ⟨rfl, rfl⟩

end Ledger
